import Mathlib

/-!
Shallow embedding of `ambitus.py`: the `Note` data model, the scale tables,
the diatonic scale builder, and the glyph encoder / formatter.

Python integers are modelled as `Int` (no overflow concerns), letters as
`Char`, Python strings as `String`, and fallible code (`raise`) as
`Except String`.  The Python `None` sentinel returned by `glyph` for
out-of-range notes is modelled as `Option.none` inside `Except.ok`.
-/

namespace Ambitus

/-- number of half tones required to advance one step on the diatonic scale,
based on A aeolian (`steps` tuple in the source). -/
def steps : List Nat := [2, 1, 2, 2, 1, 2, 2]

/-- the `scales` dict: named interval patterns. -/
def scalesL : List (String × List Nat) :=
  [("Major",          [2,2,1,2,2,2,1]),
   ("Natural minor",  [2,1,2,2,1,2,2]),
   ("Harmonic minor", [2,1,2,2,1,3,1]),
   ("Aeolian",    [2,1,2,2,1,2,2]),
   ("Locrian",    [1,2,2,1,2,2,2]),
   ("Ionian",     [2,2,1,2,2,2,1]),
   ("Lydian",     [2,2,2,1,2,2,1]),
   ("Dorian",     [2,1,2,2,2,1,2]),
   ("Phrygian",   [1,2,2,2,1,2,2]),
   ("Mixolydian", [2,2,1,2,2,1,2]),
   ("Melodic minor",    [2,1,2,2,2,2,1]),
   ("Phrygian n6",      [1,2,2,2,2,1,2]),
   ("Lydian augmented", [2,2,2,2,1,2,1]),
   ("Lydian dominant",  [2,2,2,1,2,1,2]),
   ("Mixolydian b6",    [2,2,1,2,1,2,2]),
   ("Locrian n2",       [2,1,2,1,2,2,2]),
   ("Altered dominant", [1,2,1,2,2,2,2])]

/-- the `signatures` dict: key name to (accidental polarity, affected letters). -/
def signaturesL : List (String × Int × List Char) :=
  [("c",   (0, [])),
   ("am",  (0, [])),
   ("f",   (-1, ['B'])),
   ("dm",  (-1, ['B'])),
   ("bb",  (-1, ['B', 'E'])),
   ("gm",  (-1, ['B', 'E'])),
   ("eb",  (-1, ['B', 'E', 'A'])),
   ("cm",  (-1, ['B', 'E', 'A'])),
   ("ab",  (-1, ['B', 'E', 'A', 'D'])),
   ("fm",  (-1, ['B', 'E', 'A', 'D'])),
   ("db",  (-1, ['B', 'E', 'A', 'D', 'G'])),
   ("bbm", (-1, ['B', 'E', 'A', 'D', 'G'])),
   ("gb",  (-1, ['B', 'E', 'A', 'D', 'G', 'C'])),
   ("ebm", (-1, ['B', 'E', 'A', 'D', 'G', 'C'])),
   ("cb",  (-1, ['B', 'E', 'A', 'D', 'G', 'C', 'F'])),
   ("abm", (-1, ['B', 'E', 'A', 'D', 'G', 'C', 'F'])),
   ("g",   (1, ['F'])),
   ("em",  (1, ['F'])),
   ("d",   (1, ['F', 'C'])),
   ("bm",  (1, ['F', 'C'])),
   ("a",   (1, ['F', 'C', 'G'])),
   ("f#m", (1, ['F', 'C', 'G'])),
   ("e",   (1, ['F', 'C', 'G', 'D'])),
   ("c#m", (1, ['F', 'C', 'G', 'D'])),
   ("b",   (1, ['F', 'C', 'G', 'D', 'A'])),
   ("g#m", (1, ['F', 'C', 'G', 'D', 'A'])),
   ("f#",  (1, ['F', 'C', 'G', 'D', 'A', 'E'])),
   ("d#m", (1, ['F', 'C', 'G', 'D', 'A', 'E'])),
   ("c#",  (1, ['F', 'C', 'G', 'D', 'A', 'E', 'B'])),
   ("a#m", (1, ['F', 'C', 'G', 'D', 'A', 'E', 'B']))]

/-- glyphs for all the clefs (the `clefs` dict). -/
def clefsL : List (String × String) :=
  [("treble", "T"), ("bass", "B"), ("alto", "A"), ("tenor", "t")]

/-- The `Note` class: base letter (`self.note`), its index in `"CDEFGAB"`
(`self.noteindex`), the accidental amount (`self.alt`), and the octave
(`self.oct`). -/
structure Note where
  note : Char
  noteindex : Nat
  alt : Int
  oct : Int
deriving DecidableEq, Repr

/-- `"CDEFGAB".find(c)` for the letters that occur in validated notes.
(Python returns -1 when absent; `Note.__init__` only calls it after the
letter has been validated, so the absent case is unreachable there.) -/
def cdefgabIdx (c : Char) : Nat := "CDEFGAB".toList.indexOf c

/-- `"ABCDEFG".find(c)` as used by `diatonic` for the aeolian reference index.
(Python returns -1 when absent; `diatonic` is only called on parsed notes,
whose letter is always one of A-G.) -/
def aeolianIdx (c : Char) : Nat := "ABCDEFG".toList.indexOf c

/-- `Note.__lt__`: Python tuple comparison `(oct, noteindex, alt) < ...`,
i.e. lexicographic. -/
def Note.lt (a b : Note) : Bool :=
  decide (a.oct < b.oct ∨ (a.oct = b.oct ∧
    (a.noteindex < b.noteindex ∨ (a.noteindex = b.noteindex ∧ a.alt < b.alt))))

/-- `Note.__le__`: Python tuple comparison `(oct, noteindex, alt) <= ...`. -/
def Note.le (a b : Note) : Bool :=
  decide (a.oct < b.oct ∨ (a.oct = b.oct ∧
    (a.noteindex < b.noteindex ∨ (a.noteindex = b.noteindex ∧ a.alt ≤ b.alt))))

/-- `Note.__init__(name)`.  Errors are Python exceptions: the (dead) length
check, the letter check and the octave checks raise `ValueError`; indexing
`name[0]` / `name[1]` on a too-short string raises `IndexError`.
`int(name[-1])` succeeds exactly on a decimal digit character. -/
def parseNote (name : String) : Except String Note :=
  if 2 > name.length ∧ name.length > 3 then
    Except.error "ValueError: Invalid notename"
  else
    match name.toList with
    | [] => Except.error "IndexError"
    | c0 :: rest =>
      let note := c0.toUpper
      if ¬ note ∈ "ABCDEFG".toList then
        Except.error "ValueError: Key must be one of A, B, C, D, E, F or G"
      else
        let noteindex := cdefgabIdx note
        match rest with
        | [] => Except.error "IndexError"
        | c1 :: _ =>
          let altRes : Except String Int :=
            if c1 = 'b' then Except.ok (-1)
            else if c1 = '#' then Except.ok 1
            else if ¬ c1 ∈ "123456".toList then
              Except.error "ValueError: Not a valid octave"
            else Except.ok 0
          match altRes with
          | Except.error e => Except.error e
          | Except.ok alt =>
            let last := (c0 :: rest).getLastD ' '
            if last.isDigit then
              Except.ok ⟨note, noteindex, alt, (last.toNat : Int) - 48⟩
            else
              Except.error "ValueError: invalid literal for int"

/-- One entry of the `ranges` dict. -/
structure ClefRange where
  low : Note
  high : Note
  middle : Note
deriving DecidableEq, Repr

/-- legal ranges for all clefs, and the note on the middle line
(the `ranges` dict; each `Note` literal is the parse of the source's
string, e.g. `"Ab1"` is letter A (index 5 in CDEFGAB), flat, octave 1). -/
def rangesL : List (String × ClefRange) :=
  [("bass",   ⟨⟨'A', 5, -1, 1⟩, ⟨'G', 4, 1, 4⟩, ⟨'D', 1, 0, 3⟩⟩),
   ("treble", ⟨⟨'F', 3, -1, 3⟩, ⟨'E', 2, 1, 6⟩, ⟨'B', 6, 0, 4⟩⟩),
   ("alto",   ⟨⟨'G', 4, -1, 2⟩, ⟨'F', 3, 1, 5⟩, ⟨'C', 0, 0, 4⟩⟩),
   ("tenor",  ⟨⟨'E', 2, -1, 2⟩, ⟨'D', 1, 1, 5⟩, ⟨'A', 5, 0, 3⟩⟩)]

/-- The mutable loop state of `diatonic`: the running note and the two
wrapping indices. -/
structure BState where
  current : Note
  base_index : Nat
  scale_index : Nat
deriving DecidableEq, Repr

/-- The loop body of `diatonic` (everything after the `notes.append`):
accidental drift, index advance, letter advance via `chr(ord(c)+1)` with the
`"H" -> "A"` wrap and the octave bump on reaching `"C"`. -/
def advance (scale : List Nat) (st : BState) : BState :=
  let basestep := steps.getD st.base_index 0
  let scalestep := scale.getD st.scale_index 0
  let alt := st.current.alt + ((scalestep : Int) - (basestep : Int))
  let bi := (st.base_index + 1) % 7
  let si := (st.scale_index + 1) % 7
  let note := Char.ofNat (st.current.note.toNat + 1)
  let ni := (st.current.noteindex + 1) % 7
  if note = 'H' then
    ⟨⟨'A', ni, alt, st.current.oct⟩, bi, si⟩
  else if note = 'C' then
    ⟨⟨note, ni, alt, st.current.oct + 1⟩, bi, si⟩
  else
    ⟨⟨note, ni, alt, st.current.oct⟩, bi, si⟩

/-- Diatonic position of a note: `7 * octave + noteindex`.  For valid notes
(`noteindex < 7`) this orders exactly like the `(oct, noteindex)` prefix of
the tuple comparison, and `advance` increases it by exactly 1. -/
def posI (n : Note) : Int := 7 * n.oct + (n.noteindex : Int)

/-- The `while current <= stop` loop of `diatonic`, with explicit fuel.
The fuel supplied by `diatonic` is provably sufficient for every validated
start/stop pair, where the loop runs at most `posI stop - posI start + 2`
iterations.  (On letters outside A-G the Python loop can diverge; there the
fuelled model truncates instead.) -/
def diatonicLoop : Nat → List Nat → Note → BState → List Note
  | 0, _, _, _ => []
  | fuel + 1, sc, stop, st =>
    if Note.le st.current stop then
      st.current :: diatonicLoop fuel sc stop (advance sc st)
    else []

/-- `diatonic(scale, startkey, stopkey)`, after the scale lookup and the
start/stop parsing: raises (`none`) when `stop < start`, otherwise runs the
stepping loop from `base_index = "ABCDEFG".find(start.note)`,
`scale_index = 0`. -/
def diatonic (scale : List Nat) (start stop : Note) : Option (List Note) :=
  if Note.lt stop start then none
  else some (diatonicLoop (posI stop + 2 - posI start).toNat scale stop
    ⟨start, aeolianIdx start.note, 0⟩)

/-- `diatonic_distance(note, ref_note)`: number of staff positions from the
reference note. -/
def diatonic_distance (note ref_note : Note) : Int :=
  (note.noteindex : Int) - (ref_note.noteindex : Int) + 7 * (note.oct - ref_note.oct)

/-- The `match distance` block of `glyph`: the offset token. -/
def offTok (distance : Int) : String :=
  if distance = -10 then "-0"
  else if distance = 10 then "0"
  else if distance = 0 then ""
  else toString distance

/-- The `match note.alt` block of `glyph`: the accidental token; `none`
models the `raise ValueError("Invalid accidental value")` branch.
Python's `key_alt and note.note in key_acc` is `key_alt ≠ 0 ∧ ...`. -/
def accToken (alt : Int) (letter : Char) (key_alt : Int) (key_acc : List Char) :
    Option String :=
  if alt = -1 then some (if key_alt = -1 ∧ letter ∈ key_acc then "" else "b")
  else if alt = 1 then some (if key_alt = 1 ∧ letter ∈ key_acc then "" else "#")
  else if alt = 0 then some (if key_alt ≠ 0 ∧ letter ∈ key_acc then "n" else "")
  else if alt = -2 then some "bb"
  else if alt = 2 then some "x"
  else none

/-- `glyph(note, clef, head, stem, key)`.  `Except.error` models raised
exceptions (`KeyError` from the dict lookups, `ValueError` from the
accidental match); `Except.ok none` models the `return None` taken when the
note is outside the clef's range. -/
def glyph (note : Note) (clef : String) (head : String) (stem : String)
    (key : String) : Except String (Option String) :=
  match signaturesL.lookup key with
  | none => Except.error "KeyError"
  | some sig =>
    match rangesL.lookup clef with
    | none => Except.error "KeyError"
    | some r =>
      if ¬ (Note.le r.low note && Note.le note r.high) = true then
        Except.ok none
      else
        let distance := offTok (diatonic_distance note r.middle)
        match accToken note.alt note.note sig.1 sig.2 with
        | none => Except.error "ValueError: Invalid accidental value"
        | some acc => Except.ok (some (acc ++ head ++ distance ++ stem))

/-- `build_keysig(clef, key)`. -/
def build_keysig (clef key : String) : Except String String :=
  match signaturesL.lookup key with
  | none => Except.error "KeyError"
  | some sig =>
    let accnum : String × String :=
      if sig.1 ≠ 0 then ((if sig.1 = -1 then "b" else "#"), toString sig.2.length)
      else ("", "")
    match clefsL.lookup clef with
    | none => Except.error "KeyError"
    | some cg => Except.ok (cg ++ accnum.1 ++ accnum.2)

/-- The stem argument `build_glyphs` passes to `glyph`
(`"" if stem else "s"`, line 220 of the source): empty when stems are
requested (`stem = True`), the marker `"s"` when they are suppressed. -/
def stemArg (stem : Bool) : String := if stem then "" else "s"

/-- The `for note in notes` loop of `build_glyphs`: collect the glyph of each
note, skipping falsy results (`None` and `""`), propagating raised errors. -/
def collectGlyphs (notes : List Note) (clef head stemStr key : String) :
    Except String (List String) :=
  match notes with
  | [] => Except.ok []
  | n :: rest =>
    match glyph n clef head stemStr key with
    | Except.error e => Except.error e
    | Except.ok g =>
      match collectGlyphs rest clef head stemStr key with
      | Except.error e => Except.error e
      | Except.ok gs =>
        match g with
        | none => Except.ok gs
        | some s => if s = "" then Except.ok gs else Except.ok (s :: gs)

/-- `build_glyphs(notes, clef, head, stem, sep, start, end, key, reversed)`. -/
def build_glyphs (notes : List Note) (clef : String) (head : String)
    (stem : Bool) (sep : String) (start : String) (stop : String)
    (key : String) (rev : Bool) : Except String String :=
  match collectGlyphs notes clef head (stemArg stem) key with
  | Except.error e => Except.error e
  | Except.ok glyphs =>
    let glyphs := if rev then glyphs.reverse else glyphs
    match build_keysig clef key with
    | Except.error e => Except.error e
    | Except.ok ks => Except.ok (ks ++ start ++ String.intercalate sep glyphs ++ stop)

/-- The letter of a given `"CDEFGAB"` index (used to state validity). -/
def letterAt (i : Nat) : Char := "CDEFGAB".toList.getD i ' '

/-- A structurally consistent note, as produced by `parseNote`: the stored
index is in range and matches the stored letter. -/
def Valid (n : Note) : Prop := n.noteindex < 7 ∧ n.note = letterAt n.noteindex

instance (n : Note) : Decidable (Valid n) := by unfold Valid; infer_instance

end Ambitus

namespace Ambitus

/-- Accidental drift over the next `r` iterations of the loop. -/
def driftSum (sc : List Nat) (bi si : Nat) : Nat → Int
  | 0 => 0
  | r + 1 => ((sc.getD si 0 : Int) - (steps.getD bi 0 : Int)) +
      driftSum sc ((bi + 1) % 7) ((si + 1) % 7) r

/-- The successor letter in the fixed seven-letter cycle (wrapping G to A). -/
def nextLetter (c : Char) : Char :=
  match c with
  | 'A' => 'B' | 'B' => 'C' | 'C' => 'D' | 'D' => 'E'
  | 'E' => 'F' | 'F' => 'G' | 'G' => 'A' | _ => c

lemma le_eq_true_iff (a b : Note) : Note.le a b = true ↔
    (a.oct < b.oct ∨ (a.oct = b.oct ∧ (a.noteindex < b.noteindex ∨
      (a.noteindex = b.noteindex ∧ a.alt ≤ b.alt)))) := by
  simp [Note.le]

lemma lt_eq_true_iff (a b : Note) : Note.lt a b = true ↔
    (a.oct < b.oct ∨ (a.oct = b.oct ∧ (a.noteindex < b.noteindex ∨
      (a.noteindex = b.noteindex ∧ a.alt < b.alt)))) := by
  simp [Note.lt]

lemma advance_spec (sc : List Nat) (st : BState) (h : Valid st.current) :
    Valid (advance sc st).current ∧
    posI (advance sc st).current = posI st.current + 1 ∧
    (advance sc st).current.note = nextLetter st.current.note ∧
    (advance sc st).current.oct =
      st.current.oct + (if st.current.note = 'B' then 1 else 0) ∧
    (advance sc st).current.alt = st.current.alt +
      ((sc.getD st.scale_index 0 : Int) - (steps.getD st.base_index 0 : Int)) ∧
    (advance sc st).base_index = (st.base_index + 1) % 7 ∧
    (advance sc st).scale_index = (st.scale_index + 1) % 7 := by
  obtain ⟨⟨c, i, a, o⟩, bi, si⟩ := st
  obtain ⟨hi, hc⟩ := h
  simp only at hi hc
  interval_cases i <;> simp_all [letterAt, advance, Valid, posI, nextLetter] <;> omega

end Ambitus

namespace Ambitus

lemma le_iff_pos (a b : Note) (ha : a.noteindex < 7) (hb : b.noteindex < 7) :
    Note.le a b = true ↔ (posI a < posI b ∨ (posI a = posI b ∧ a.alt ≤ b.alt)) := by
  rw [le_eq_true_iff]
  unfold posI
  omega

lemma lt_iff_pos (a b : Note) (ha : a.noteindex < 7) (hb : b.noteindex < 7) :
    Note.lt a b = true ↔ (posI a < posI b ∨ (posI a = posI b ∧ a.alt < b.alt)) := by
  rw [lt_eq_true_iff]
  unfold posI
  omega

lemma loop_length (r : Nat) : ∀ (fuel : Nat) (sc : List Nat) (stop : Note)
    (st : BState), Valid st.current → Valid stop →
    posI stop - posI st.current = r →
    st.current.alt + driftSum sc st.base_index st.scale_index r = stop.alt →
    r + 2 ≤ fuel →
    (diatonicLoop fuel sc stop st).length = r + 1 := by
  induction r with
  | zero =>
    intro fuel sc stop st hv hvs hpos halt hfuel
    obtain ⟨f, rfl⟩ : ∃ f, fuel = f + 2 := ⟨fuel - 2, by omega⟩
    have hle : Note.le st.current stop = true := by
      rw [le_iff_pos _ _ hv.1 hvs.1]
      simp [driftSum] at halt
      omega
    obtain ⟨hav, hap, -, -, -, -, -⟩ := advance_spec sc st hv
    have hnle : Note.le (advance sc st).current stop = false := by
      rw [Bool.eq_false_iff, Ne, le_iff_pos _ _ hav.1 hvs.1]
      omega
    simp [diatonicLoop, hle, hnle]
  | succ r ih =>
    intro fuel sc stop st hv hvs hpos halt hfuel
    obtain ⟨f, rfl⟩ : ∃ f, fuel = f + 1 := ⟨fuel - 1, by omega⟩
    have hle : Note.le st.current stop = true := by
      rw [le_iff_pos _ _ hv.1 hvs.1]
      omega
    obtain ⟨hav, hap, -, -, haalt, habi, hasi⟩ := advance_spec sc st hv
    have := ih f sc stop (advance sc st) hav hvs (by omega)
      (by rw [haalt, habi, hasi]; simp [driftSum] at halt ⊢; omega) (by omega)
    simp [diatonicLoop, hle, this]

lemma loop_head (fuel : Nat) (sc : List Nat) (stop : Note) (st : BState)
    (x : Note) (hx : x ∈ (diatonicLoop fuel sc stop st).head?) : x = st.current := by
  match fuel with
  | 0 => simp [diatonicLoop] at hx
  | f + 1 =>
    rw [diatonicLoop] at hx
    by_cases h : Note.le st.current stop = true
    · simp [h] at hx; exact hx.symm
    · rw [Bool.not_eq_true] at h; simp [h] at hx

lemma loop_chain (fuel : Nat) : ∀ (sc : List Nat) (stop : Note) (st : BState),
    Valid st.current →
    List.Chain' (fun a b => Note.lt a b = true) (diatonicLoop fuel sc stop st) := by
  induction fuel with
  | zero => intro sc stop st _; simp [diatonicLoop]
  | succ f ih =>
    intro sc stop st hv
    rw [diatonicLoop]
    by_cases h : Note.le st.current stop = true
    · obtain ⟨hav, hap, -, -, -, -, -⟩ := advance_spec sc st hv
      simp only [h, if_true]
      rw [List.chain'_cons']
      refine ⟨fun y hy => ?_, ih sc stop (advance sc st) hav⟩
      rw [loop_head _ _ _ _ _ hy, lt_iff_pos _ _ hv.1 hav.1]
      omega
    · rw [Bool.not_eq_true] at h
      simp [h]

end Ambitus

namespace Ambitus

lemma aeolian_letterAt (i : Nat) (h : i < 7) : aeolianIdx (letterAt i) < 7 := by
  revert h
  revert i
  decide

lemma valid_aeolian (n : Note) (h : Valid n) : aeolianIdx n.note < 7 := by
  rw [h.2]
  exact aeolian_letterAt _ h.1

lemma drift_seven_zero_all :
    ∀ p ∈ scalesL.map Prod.snd, ∀ bi, bi < 7 → driftSum p bi 0 7 = 0 := by
  decide

lemma drift_seven_zero (nm : String) (pat : List Nat) (h : (nm, pat) ∈ scalesL)
    (bi : Nat) (hbi : bi < 7) : driftSum pat bi 0 7 = 0 :=
  drift_seven_zero_all pat (List.mem_map_of_mem Prod.snd h) bi hbi

/-- C1: for every named scale pattern and every (well-formed) start pitch,
building the scale up to the pitch exactly one octave above the start yields
exactly 8 pitches. -/
theorem scale_octave_length (nm : String) (pat : List Nat)
    (hmem : (nm, pat) ∈ scalesL) (n : Note) (hv : Valid n) :
    (diatonic pat n ⟨n.note, n.noteindex, n.alt, n.oct + 1⟩).map List.length =
      some 8 := by
  set stop : Note := ⟨n.note, n.noteindex, n.alt, n.oct + 1⟩ with hstop
  have hvs : Valid stop := ⟨hv.1, hv.2⟩
  have hpos : posI stop = posI n + 7 := by simp [posI, hstop]; ring
  have hlt : Note.lt stop n = false := by
    rw [Bool.eq_false_iff, Ne, lt_iff_pos _ _ hvs.1 hv.1]; omega
  have hfuel : (posI stop + 2 - posI n).toNat = 9 := by omega
  simp only [diatonic, hlt, Bool.false_eq_true, if_false, hfuel, Option.map_some']
  congr 1
  have hlen := loop_length 7 9 pat stop ⟨n, aeolianIdx n.note, 0⟩ hv hvs
    (by simpa using by omega)
    (by
      have := drift_seven_zero nm pat hmem (aeolianIdx n.note) (valid_aeolian n hv)
      simp only at this ⊢
      rw [this]
      simp [hstop])
    (by omega)
  simpa using hlen

/-- C10: for every named scale pattern and start ≤ stop, the builder
succeeds and returns a non-empty strictly ascending list starting at the
start pitch. -/
theorem scale_ascending (nm : String) (pat : List Nat)
    (_hmem : (nm, pat) ∈ scalesL) (start stop : Note)
    (hvs : Valid start) (hvt : Valid stop) (hle : Note.le start stop = true) :
    ∃ l, diatonic pat start stop = some l ∧ l ≠ [] ∧ l.head? = some start ∧
      List.Chain' (fun a b => Note.lt a b = true) l := by
  have hple := (le_iff_pos _ _ hvs.1 hvt.1).1 hle
  have hlt : Note.lt stop start = false := by
    rw [Bool.eq_false_iff, Ne, lt_iff_pos _ _ hvt.1 hvs.1]
    omega
  obtain ⟨f, hf⟩ : ∃ f, (posI stop + 2 - posI start).toNat = f + 1 :=
    ⟨(posI stop + 2 - posI start).toNat - 1, by omega⟩
  refine ⟨diatonicLoop (posI stop + 2 - posI start).toNat pat stop
    ⟨start, aeolianIdx start.note, 0⟩, ?_, ?_, ?_, loop_chain _ pat stop _ hvs⟩
  · simp [diatonic, hlt]
  · rw [hf, diatonicLoop]
    simp [hle]
  · rw [hf, diatonicLoop]
    simp [hle]

end Ambitus

namespace Ambitus

/-- C2: D Dorian is all natural; C Dorian has exactly the flats E-flat and
B-flat. -/
theorem dorian_accidentals :
    ("Dorian", [2,1,2,2,2,1,2]) ∈ scalesL ∧
    parseNote "D3" = Except.ok ⟨'D',1,0,3⟩ ∧
    parseNote "D4" = Except.ok ⟨'D',1,0,4⟩ ∧
    parseNote "C3" = Except.ok ⟨'C',0,0,3⟩ ∧
    parseNote "C4" = Except.ok ⟨'C',0,0,4⟩ ∧
    diatonic [2,1,2,2,2,1,2] ⟨'D',1,0,3⟩ ⟨'D',1,0,4⟩ =
      some [⟨'D',1,0,3⟩, ⟨'E',2,0,3⟩, ⟨'F',3,0,3⟩, ⟨'G',4,0,3⟩, ⟨'A',5,0,3⟩,
            ⟨'B',6,0,3⟩, ⟨'C',0,0,4⟩, ⟨'D',1,0,4⟩] ∧
    ([⟨'D',1,0,3⟩, ⟨'E',2,0,3⟩, ⟨'F',3,0,3⟩, ⟨'G',4,0,3⟩, ⟨'A',5,0,3⟩,
      ⟨'B',6,0,3⟩, ⟨'C',0,0,4⟩, ⟨'D',1,0,4⟩] : List Note).all
        (fun p => p.alt == 0) = true ∧
    diatonic [2,1,2,2,2,1,2] ⟨'C',0,0,3⟩ ⟨'C',0,0,4⟩ =
      some [⟨'C',0,0,3⟩, ⟨'D',1,0,3⟩, ⟨'E',2,-1,3⟩, ⟨'F',3,0,3⟩, ⟨'G',4,0,3⟩,
            ⟨'A',5,0,3⟩, ⟨'B',6,-1,3⟩, ⟨'C',0,0,4⟩] ∧
    ([⟨'C',0,0,3⟩, ⟨'D',1,0,3⟩, ⟨'E',2,-1,3⟩, ⟨'F',3,0,3⟩, ⟨'G',4,0,3⟩,
      ⟨'A',5,0,3⟩, ⟨'B',6,-1,3⟩, ⟨'C',0,0,4⟩] : List Note).filter
        (fun p => !(p.alt == 0)) = [⟨'E',2,-1,3⟩, ⟨'B',6,-1,3⟩] :=
  ⟨by decide, rfl, rfl, rfl, rfl, by decide, by decide, by decide, by decide⟩

/-- C3 is false as stated: in the C-major scale from G3, the first step
advances the letter from G to A with the octave unchanged (A3, not A4), and
the octave increments instead at the B3-to-C4 step. -/
theorem octave_bump_counterexample :
    diatonic [2,2,1,2,2,2,1] ⟨'G',4,0,3⟩ ⟨'G',4,0,4⟩ =
      some [⟨'G',4,0,3⟩, ⟨'A',5,0,3⟩, ⟨'B',6,0,3⟩, ⟨'C',0,0,4⟩, ⟨'D',1,0,4⟩,
            ⟨'E',2,0,4⟩, ⟨'F',3,1,4⟩, ⟨'G',4,0,4⟩] ∧
    (⟨'A',5,0,3⟩ : Note).oct = (⟨'G',4,0,3⟩ : Note).oct ∧
    (⟨'C',0,0,4⟩ : Note).oct = (⟨'B',6,0,3⟩ : Note).oct + 1 := by
  decide

/-- C3 (amended): each iteration advances the letter along the fixed cycle
(wrapping G to A), and the octave increments by 1 exactly at the step whose
letter advances from B to C. -/
theorem letter_cycle_octave_bump (sc : List Nat) (st : BState)
    (h : Valid st.current) :
    (advance sc st).current.note = nextLetter st.current.note ∧
    (advance sc st).current.oct =
      st.current.oct + (if st.current.note = 'B' then 1 else 0) := by
  obtain ⟨-, -, h1, h2, -⟩ := advance_spec sc st h
  exact ⟨h1, h2⟩

theorem letter_cycle_octave_bump_witness :
    Valid (⟨'G', 4, 0, 3⟩ : Note) ∧
    ((advance [2,2,1,2,2,2,1] ⟨⟨'G', 4, 0, 3⟩, 6, 0⟩).current.note =
        nextLetter 'G' ∧
      (advance [2,2,1,2,2,2,1] ⟨⟨'G', 4, 0, 3⟩, 6, 0⟩).current.oct =
        3 + (if ('G' : Char) = 'B' then 1 else 0)) :=
  ⟨by decide, letter_cycle_octave_bump [2,2,1,2,2,2,1] ⟨⟨'G', 4, 0, 3⟩, 6, 0⟩ (by decide)⟩

/-- C9: within the same letter and octave, flat < natural < sharp, and the
spelled comparisons E#4 < F4 and E4 < Fb4 both hold. -/
theorem order_non_enharmonic :
    (∀ (c : Char) (i : Nat) (o : Int),
      Note.lt ⟨c, i, -1, o⟩ ⟨c, i, 0, o⟩ = true ∧
      Note.lt ⟨c, i, 0, o⟩ ⟨c, i, 1, o⟩ = true) ∧
    Note.lt ⟨'E', 2, 1, 4⟩ ⟨'F', 3, 0, 4⟩ = true ∧
    Note.lt ⟨'E', 2, 0, 4⟩ ⟨'F', 3, -1, 4⟩ = true := by
  refine ⟨fun c i o => ⟨?_, ?_⟩, by decide, by decide⟩ <;>
    (rw [lt_eq_true_iff]; simp)

end Ambitus

namespace Ambitus

/-- C4: the accidental token, for every key-signature entry of the table. -/
theorem accidental_encoding (k : String) (ka : Int) (kacc : List Char)
    (_hmem : (k, (ka, kacc)) ∈ signaturesL) (c : Char) (alt : Int) :
    (alt = -1 → accToken alt c ka kacc =
      some (if ka = -1 ∧ c ∈ kacc then "" else "b")) ∧
    (alt = 1 → accToken alt c ka kacc =
      some (if ka = 1 ∧ c ∈ kacc then "" else "#")) ∧
    (alt = 0 → accToken alt c ka kacc =
      some (if ka ≠ 0 ∧ c ∈ kacc then "n" else "")) ∧
    (alt = -2 → accToken alt c ka kacc = some "bb") ∧
    (alt = 2 → accToken alt c ka kacc = some "x") := by
  refine ⟨?_, ?_, ?_, ?_, ?_⟩ <;> rintro rfl <;> norm_num [accToken]

theorem accidental_encoding_witness :
    ("f", ((-1 : Int), ['B'])) ∈ signaturesL ∧
    accToken (-1) 'B' (-1) ['B'] =
      some (if (-1 : Int) = -1 ∧ 'B' ∈ ['B'] then "" else "b") :=
  ⟨by decide, (accidental_encoding "f" (-1) ['B'] (by decide) 'B' (-1)).1 rfl⟩

/-- C5 is false as stated: when the caller suppresses stems
(`stem = False`), the stem token is the non-empty marker "s", not the empty
string; B4 on the treble middle line renders as "qs", giving "Tqs:|". -/
theorem stem_token_counterexample :
    build_glyphs [⟨'B', 6, 0, 4⟩] "treble" "q" false ":" "" ":|" "c" false =
      Except.ok "Tqs:|" ∧
    stemArg false = "s" ∧ ¬ stemArg false = "" :=
  ⟨rfl, rfl, by decide⟩

/-- C5 (amended): an in-range glyph token is the concatenation
accidental token + note head + offset token + stem token, where the stem
token is empty when stems are requested (`stem = true`) and the marker "s"
when the caller suppresses them (`stem = false`). -/
theorem glyph_token_concat (note : Note) (clef key head : String)
    (rng : ClefRange) (sig : Int × List Char) (stem : Bool) (acc : String)
    (hrng : rangesL.lookup clef = some rng)
    (hsig : signaturesL.lookup key = some sig)
    (hlow : Note.le rng.low note = true) (hhigh : Note.le note rng.high = true)
    (hacc : accToken note.alt note.note sig.1 sig.2 = some acc) :
    glyph note clef head (stemArg stem) key =
      Except.ok (some (acc ++ head ++ offTok (diatonic_distance note rng.middle)
        ++ stemArg stem)) ∧
    stemArg true = "" ∧ stemArg false = "s" := by
  refine ⟨?_, rfl, rfl⟩
  simp only [glyph, hsig, hrng]
  simp [hlow, hhigh, hacc]

theorem glyph_token_concat_witness :
    rangesL.lookup "treble" = some ⟨⟨'F', 3, -1, 3⟩, ⟨'E', 2, 1, 6⟩, ⟨'B', 6, 0, 4⟩⟩ ∧
    signaturesL.lookup "c" = some (0, []) ∧
    glyph ⟨'B', 6, 0, 4⟩ "treble" "q" (stemArg false) "c" =
      Except.ok (some ("" ++ "q" ++
        offTok (diatonic_distance ⟨'B', 6, 0, 4⟩ ⟨'B', 6, 0, 4⟩) ++ stemArg false)) :=
  ⟨rfl, rfl, (glyph_token_concat ⟨'B', 6, 0, 4⟩ "treble" "c" "q"
    ⟨⟨'F', 3, -1, 3⟩, ⟨'E', 2, 1, 6⟩, ⟨'B', 6, 0, 4⟩⟩ (0, []) false ""
    rfl rfl (by decide) (by decide) rfl).1⟩

/-- C8: the offset token inside an in-range glyph is the stringified
diatonic distance, except that -10 encodes as "-0", 10 as "0" and 0 as the
empty token. -/
theorem offset_encoding (note : Note) (clef key head stem : String)
    (rng : ClefRange) (sig : Int × List Char) (acc : String)
    (hrng : rangesL.lookup clef = some rng)
    (hsig : signaturesL.lookup key = some sig)
    (hlow : Note.le rng.low note = true) (hhigh : Note.le note rng.high = true)
    (hacc : accToken note.alt note.note sig.1 sig.2 = some acc) :
    glyph note clef head stem key = Except.ok (some (acc ++ head ++
      (if (note.noteindex : Int) - (rng.middle.noteindex : Int) +
            7 * (note.oct - rng.middle.oct) = -10 then "-0"
       else if (note.noteindex : Int) - (rng.middle.noteindex : Int) +
            7 * (note.oct - rng.middle.oct) = 10 then "0"
       else if (note.noteindex : Int) - (rng.middle.noteindex : Int) +
            7 * (note.oct - rng.middle.oct) = 0 then ""
       else toString ((note.noteindex : Int) - (rng.middle.noteindex : Int) +
            7 * (note.oct - rng.middle.oct))) ++ stem)) := by
  simp only [glyph, hsig, hrng]
  simp [hlow, hhigh, hacc, offTok, diatonic_distance]

theorem offset_encoding_witness :
    rangesL.lookup "treble" = some ⟨⟨'F', 3, -1, 3⟩, ⟨'E', 2, 1, 6⟩, ⟨'B', 6, 0, 4⟩⟩ ∧
    Note.le (⟨'F', 3, -1, 3⟩ : Note) ⟨'F', 3, 0, 3⟩ = true ∧
    glyph ⟨'F', 3, 0, 3⟩ "treble" "q" "" "c" = Except.ok (some ("" ++ "q" ++
      (if ((3 : Nat) : Int) - ((6 : Nat) : Int) + 7 * ((3 : Int) - 4) = -10 then "-0"
       else if ((3 : Nat) : Int) - ((6 : Nat) : Int) + 7 * ((3 : Int) - 4) = 10 then "0"
       else if ((3 : Nat) : Int) - ((6 : Nat) : Int) + 7 * ((3 : Int) - 4) = 0 then ""
       else toString (((3 : Nat) : Int) - ((6 : Nat) : Int) + 7 * ((3 : Int) - 4))) ++ "")) :=
  ⟨rfl, by decide, offset_encoding ⟨'F', 3, 0, 3⟩ "treble" "c" "q" ""
    ⟨⟨'F', 3, -1, 3⟩, ⟨'E', 2, 1, 6⟩, ⟨'B', 6, 0, 4⟩⟩ (0, []) ""
    rfl rfl (by decide) (by decide) rfl⟩

end Ambitus

namespace Ambitus

/-- C6: the code accepts several inputs the format forbids.  `"Cb9"` has an
out-of-range octave digit, `"Cb44"` has 4 characters, and `"C44"` is not of
the letter + optional accidental + octave shape; all three are accepted
because the length guard `2 > len(name) > 3` can never hold and the octave
character after an accidental is only validated by `int(...)`. -/
theorem notename_validation_gap :
    parseNote "Cb9" = Except.ok ⟨'C', 0, -1, 9⟩ ∧
    parseNote "Cb44" = Except.ok ⟨'C', 0, -1, 4⟩ ∧
    parseNote "C44" = Except.ok ⟨'C', 0, 0, 4⟩ ∧
    parseNote "Cb0" = Except.ok ⟨'C', 0, -1, 0⟩ :=
  ⟨rfl, rfl, rfl, rfl⟩

lemma glyph_out_of_range (note : Note) (clef key : String) (rng : ClefRange)
    (sig : Int × List Char) (hrng : rangesL.lookup clef = some rng)
    (hsig : signaturesL.lookup key = some sig)
    (hout : (Note.le rng.low note && Note.le note rng.high) = false) :
    ∀ head stem, glyph note clef head stem key = Except.ok none := by
  intro head stem
  simp only [glyph, hsig, hrng, hout]
  simp

lemma collect_drop (note : Note) (clef head stemS key : String)
    (hg : glyph note clef head stemS key = Except.ok none) :
    ∀ pre post, collectGlyphs (pre ++ note :: post) clef head stemS key =
      collectGlyphs (pre ++ post) clef head stemS key := by
  intro pre
  induction pre with
  | nil =>
    intro post
    simp only [List.nil_append, collectGlyphs, hg]
    cases collectGlyphs post clef head stemS key <;> rfl
  | cons a pre ih =>
    intro post
    simp only [List.cons_append, collectGlyphs, List.append_eq]
    rw [ih]

/-- C7: a note outside the clef's inclusive range yields the `None` sentinel
rather than an error, and the formatter simply drops it, rendering the rest
of the sequence unchanged. -/
theorem out_of_range_skipped (note : Note) (clef key : String)
    (rng : ClefRange) (sig : Int × List Char)
    (hrng : rangesL.lookup clef = some rng)
    (hsig : signaturesL.lookup key = some sig)
    (hout : (Note.le rng.low note && Note.le note rng.high) = false) :
    (∀ head stem, glyph note clef head stem key = Except.ok none) ∧
    ∀ (pre post : List Note) (head : String) (stem : Bool)
      (sep st en : String) (rev : Bool),
      build_glyphs (pre ++ note :: post) clef head stem sep st en key rev =
      build_glyphs (pre ++ post) clef head stem sep st en key rev := by
  have hg := glyph_out_of_range note clef key rng sig hrng hsig hout
  refine ⟨hg, fun pre post head stem sep st en rev => ?_⟩
  simp only [build_glyphs, collect_drop note clef head (stemArg stem) key
    (hg head (stemArg stem)) pre post]

theorem out_of_range_skipped_witness :
    rangesL.lookup "bass" = some ⟨⟨'A', 5, -1, 1⟩, ⟨'G', 4, 1, 4⟩, ⟨'D', 1, 0, 3⟩⟩ ∧
    (Note.le (⟨'A', 5, -1, 1⟩ : Note) ⟨'G', 4, 0, 1⟩ &&
      Note.le (⟨'G', 4, 0, 1⟩ : Note) ⟨'G', 4, 1, 4⟩) = false ∧
    glyph ⟨'G', 4, 0, 1⟩ "bass" "q" "" "c" = Except.ok none ∧
    build_glyphs ([] ++ ⟨'G', 4, 0, 1⟩ :: [(⟨'D', 1, 0, 3⟩ : Note)])
        "bass" "q" true ":" "" ":|" "c" false =
      build_glyphs ([] ++ [(⟨'D', 1, 0, 3⟩ : Note)])
        "bass" "q" true ":" "" ":|" "c" false ∧
    build_glyphs [(⟨'D', 1, 0, 3⟩ : Note)] "bass" "q" true ":" "" ":|" "c" false =
      Except.ok "Bq:|" :=
  ⟨rfl, by decide,
   (out_of_range_skipped ⟨'G', 4, 0, 1⟩ "bass" "c"
      ⟨⟨'A', 5, -1, 1⟩, ⟨'G', 4, 1, 4⟩, ⟨'D', 1, 0, 3⟩⟩ (0, []) rfl rfl (by decide)).1 "q" "",
   (out_of_range_skipped ⟨'G', 4, 0, 1⟩ "bass" "c"
      ⟨⟨'A', 5, -1, 1⟩, ⟨'G', 4, 1, 4⟩, ⟨'D', 1, 0, 3⟩⟩ (0, []) rfl rfl (by decide)).2
      [] [⟨'D', 1, 0, 3⟩] "q" true ":" "" ":|" false,
   rfl⟩

end Ambitus

namespace Ambitus

theorem scale_octave_length_witness :
    ("Major", [2,2,1,2,2,2,1]) ∈ scalesL ∧ Valid (⟨'C', 0, 0, 4⟩ : Note) ∧
    (diatonic [2,2,1,2,2,2,1] ⟨'C', 0, 0, 4⟩ ⟨'C', 0, 0, 5⟩).map List.length =
      some 8 :=
  ⟨by decide, by decide,
   scale_octave_length "Major" [2,2,1,2,2,2,1] (by decide) ⟨'C', 0, 0, 4⟩ (by decide)⟩

theorem scale_ascending_witness :
    ("Major", [2,2,1,2,2,2,1]) ∈ scalesL ∧ Valid (⟨'C', 0, 0, 4⟩ : Note) ∧
    Valid (⟨'C', 0, 0, 5⟩ : Note) ∧
    Note.le ⟨'C', 0, 0, 4⟩ ⟨'C', 0, 0, 5⟩ = true ∧
    (∃ l, diatonic [2,2,1,2,2,2,1] ⟨'C', 0, 0, 4⟩ ⟨'C', 0, 0, 5⟩ = some l ∧
      l ≠ [] ∧ l.head? = some ⟨'C', 0, 0, 4⟩ ∧
      List.Chain' (fun a b => Note.lt a b = true) l) :=
  ⟨by decide, by decide, by decide, by decide,
   scale_ascending "Major" [2,2,1,2,2,2,1] (by decide) ⟨'C', 0, 0, 4⟩
     ⟨'C', 0, 0, 5⟩ (by decide) (by decide) (by decide)⟩

end Ambitus
